import Mathlib

/-!
Verification of the pi5Array multi-camera synchronized-capture system.

This file gives a shallow embedding in Lean 4 of the core of the pi5Array
repository (clock synchronization, scheduled-capture protocol, fleet
registry, dispatch/aggregation, device-side capture agent) and proves the
specification claims about it.

Modelling conventions:
* Wall-clock timestamps and durations are rationals (seconds).
* Python dictionaries keyed by node id are association lists
  `List (Nat × CameraNode)` preserving insertion order (Python dicts
  iterate in insertion order); well-formed registry states have no
  duplicate keys.
* Network effects (NTP responses, readiness probes, HTTP command sends)
  are oracles passed in as explicit arguments; an oracle result captures
  everything the remote side may answer, including failure.
* `async` functions become pure state-passing functions; each background
  loop iteration becomes one explicit step function.
-/

namespace Pi5Array

/-! ## Clock sync service (`src/shared/ntp_sync.py`, class `NTPClient`) -/

/-- State of `NTPClient`: the estimated offset from true time and the local
time of the last successful sync (`0` meaning "never synced"). -/
structure NTPClient where
  time_offset : ℚ := 0
  last_sync : ℚ := 0
deriving Repr, DecidableEq

/-- `NTPClient.get_synchronized_time`: local time plus the current offset. -/
def get_synchronized_time (c : NTPClient) (localTime : ℚ) : ℚ :=
  localTime + c.time_offset

/-- `NTPClient.is_synchronized`: true once at least one sync succeeded and
the estimate is younger than `max_age` seconds. -/
def is_synchronized (c : NTPClient) (localTime : ℚ) (max_age : ℚ := 300) : Bool :=
  if c.last_sync = 0 then false
  else decide (localTime - c.last_sync < max_age)

/-- `NTPClient.sync_time`. Each list entry is one server attempt: the local
time at that attempt and the value returned by `get_ntp_time` (`none` on
network failure / exception). The Python code guards the response with
`if ntp_time:`, so a response equal to `0.0` is *falsy* and is treated like
a failure (it falls through to the next server). On the first truthy
response the offset and `last_sync` are set and the loop stops; if every
attempt falls through the state is left unchanged and `False` is returned. -/
def sync_time (c : NTPClient) : List (ℚ × Option ℚ) → NTPClient × Bool
  | [] => (c, false)
  | (localTime, resp) :: rest =>
    match resp with
    | some ntpTime =>
      if ntpTime = 0 then sync_time c rest
      else ({ time_offset := ntpTime - localTime, last_sync := localTime }, true)
    | none => sync_time c rest

/-! ## Scheduled capture protocol (`src/shared/ntp_sync.py`, class
`ScheduledCapture`) -/

/-- `ScheduledCapture.schedule_capture`: when the clock is not synchronized
a sync is attempted first, then the capture time is the (post-sync)
synchronized time plus the requested delay. Returns the possibly-updated
client, whether a sync was triggered, and the capture time. The
`sessionId` argument is only logged by the source, never used. -/
def schedule_capture (c : NTPClient) (attempts : List (ℚ × Option ℚ))
    (localTime : ℚ) (sessionId : String) (delay_seconds : ℚ) :
    NTPClient × Bool × ℚ :=
  let _ := sessionId
  let p : NTPClient × Bool :=
    if is_synchronized c localTime then (c, false)
    else ((sync_time c attempts).1, true)
  let current_time := get_synchronized_time p.1 localTime
  (p.1, p.2, current_time + delay_seconds)

/-- Body of the `ScheduledCapture.wait_for_capture_time` loop, on the
remaining time `d = capture_time - now`. Returns the list of sleep
durations issued and the number of callback invocations. The model assumes
the synchronized clock advances by exactly the slept duration between loop
iterations, so after sleeping `step` the remaining time is `d - step`.
The `fuel` argument is an upper bound on the number of loop iterations;
`wait_for_capture_time` instantiates it large enough that it is never
exhausted (lemma `waitGo_spec`). -/
def waitGo : ℕ → ℚ → List ℚ × ℕ
  | 0, _ => ([], 0)
  | fuel + 1, d =>
    if d ≤ 0 then ([], 1)
    else
      let step := if 1 < d then 1 else d
      let rest := waitGo fuel (d - step)
      (step :: rest.1, rest.2)

/-- `ScheduledCapture.wait_for_capture_time`: coarse-then-fine wait until
the synchronized clock reaches `capture_time`, then invoke the callback.
Returns the sleep durations issued and the callback invocation count. -/
def wait_for_capture_time (capture_time now : ℚ) : List ℚ × ℕ :=
  waitGo ((⌈capture_time - now⌉).toNat + 1) (capture_time - now)

/-! ## Fleet registry (`src/master_controller/camera_manager.py`) -/

/-- Dataclass `CameraNode`: one tracked capture device. -/
structure CameraNode where
  node_id : ℕ
  ip_address : String
  node_port : ℕ := 8084
  status : String := "offline"
  last_heartbeat : ℚ := 0
  is_ready : Bool := false
  capabilities : List String := []
deriving Repr, DecidableEq

/-- Mutable state of `CameraManager`: the node dictionary (an insertion
ordered association list keyed by node id), the current preview/reference
node, and the next id allocation counter. -/
structure CameraManager where
  nodes : List (ℕ × CameraNode) := []
  current_preview_node : Option ℕ := none
  next_node_id : ℕ := 1
deriving Repr, DecidableEq

/-- Keys of the node dictionary, in iteration (insertion) order. -/
def nodeIds (s : CameraManager) : List ℕ := s.nodes.map Prod.fst

/-- Dictionary read `self.nodes[node_id]` / membership test. -/
def getNode (s : CameraManager) (node_id : ℕ) : Option CameraNode :=
  (s.nodes.find? (fun p => p.1 == node_id)).map Prod.snd

/-- In-place mutation of the record stored under a key (Python mutates the
`CameraNode` object through the dict; keys and order are unchanged). -/
def updateNode (s : CameraManager) (node_id : ℕ) (f : CameraNode → CameraNode) :
    CameraManager :=
  { s with nodes := s.nodes.map (fun p => if p.1 == node_id then (p.1, f p.2) else p) }

/-- The `while self.next_node_id in self.nodes` skip loop inside
`CameraManager.allocate_node_id`: first id `≥ next` not present in `ks`. -/
def allocFrom (ks : List ℕ) (next : ℕ) : ℕ :=
  if h : next ∈ ks then allocFrom ks (next + 1) else next
termination_by ks.foldr max 0 + 1 - next
decreasing_by
  have hle : next ≤ ks.foldr max 0 := by
    induction ks with
    | nil => cases h
    | cons a l ih =>
      rcases List.mem_cons.mp h with rfl | hmem
      · exact le_max_left _ _
      · exact le_trans (ih hmem) (le_max_right _ _)
  omega

/-- `CameraManager.allocate_node_id`: skip past ids already in the dict,
hand out the first free one, and advance the counter past it. -/
def allocate_node_id (s : CameraManager) : ℕ × CameraManager :=
  let allocated_id := allocFrom (nodeIds s) s.next_node_id
  (allocated_id, { s with next_node_id := allocated_id + 1 })

/-- `CameraManager.register_node`: reject a missing ip, otherwise allocate
an id, insert a fresh `online` node, and make it the preview node when
none is set. Returns `(success, node_id)` and the new state. -/
def register_node (s : CameraManager) (local_ip : String) (node_port : ℕ)
    (capabilities : List String) (now : ℚ) : (Bool × ℕ) × CameraManager :=
  if local_ip = "" then ((false, 0), s)
  else
    let a := allocate_node_id s
    let node_id := a.1
    let s1 := a.2
    let node : CameraNode :=
      { node_id := node_id, ip_address := local_ip, node_port := node_port,
        status := "online", last_heartbeat := now, is_ready := false,
        capabilities := capabilities }
    let s2 := { s1 with nodes := s1.nodes ++ [(node_id, node)] }
    let s3 :=
      if s2.current_preview_node = none then
        { s2 with current_preview_node := some node_id }
      else s2
    ((true, node_id), s3)

/-- Iterated registration of fresh devices into an initially empty
registry (each with a fixed well-formed ip). -/
def registerN : ℕ → CameraManager
  | 0 => {}
  | n + 1 => (register_node (registerN n) "192.168.1.10" 8084 [] 0).2

/-- First `online` node in dict iteration order, if any. -/
def firstOnlineId (s : CameraManager) : Option ℕ :=
  (s.nodes.find? (fun p => p.2.status == "online")).map Prod.fst

/-- `CameraManager.switch_to_next_online_node`: point the preview at the
first online node, or at nothing when no node is online. -/
def switch_to_next_online_node (s : CameraManager) : CameraManager :=
  match s.nodes.find? (fun p => p.2.status == "online") with
  | some p => { s with current_preview_node := some p.1 }
  | none => { s with current_preview_node := none }

/-- `CameraManager.node_offline`: when the id is tracked, mark it offline
and not ready and re-point the preview if it was this node; the call
always reports success. -/
def node_offline (s : CameraManager) (node_id : ℕ) : Bool × CameraManager :=
  if node_id ∈ nodeIds s then
    let s1 := updateNode s node_id
      (fun n => { n with status := "offline", is_ready := false })
    let s2 :=
      if s1.current_preview_node = some node_id then switch_to_next_online_node s1
      else s1
    (true, s2)
  else (true, s)

/-- `CameraManager.update_heartbeat`: refresh heartbeat time and readiness
of a tracked node, resurrecting it to `online` if the monitor had marked
it offline; unknown ids are ignored. -/
def update_heartbeat (s : CameraManager) (node_id : ℕ) (is_ready : Bool)
    (now : ℚ) : CameraManager :=
  if node_id ∈ nodeIds s then
    updateNode s node_id (fun n =>
      let n1 := { n with last_heartbeat := now, is_ready := is_ready }
      if n1.status == "offline" then { n1 with status := "online" } else n1)
  else s

/-- Body of the `heartbeat_monitor` scan for one node: a node silent for
more than 30 seconds and not already offline is marked offline and not
ready, with preview failover when it was the preview node. -/
def tickStep (now : ℚ) (s : CameraManager) (node_id : ℕ) : CameraManager :=
  match getNode s node_id with
  | none => s
  | some n =>
    if 30 < now - n.last_heartbeat then
      if n.status ≠ "offline" then
        let s1 := updateNode s node_id
          (fun m => { m with status := "offline", is_ready := false })
        if s1.current_preview_node = some node_id then switch_to_next_online_node s1
        else s1
      else s
    else s

/-- One iteration of the `CameraManager.heartbeat_monitor` background loop
at local time `now`: scan every node in iteration order. -/
def heartbeat_monitor_tick (s : CameraManager) (now : ℚ) : CameraManager :=
  (nodeIds s).foldl (tickStep now) s

/-- `CameraManager.check_all_nodes_ready`: probe each online node's
readiness endpoint (the `probe` oracle already folds endpoint errors into
`false`, as `check_node_ready` catches every exception), record `false`
for non-online nodes, and store each answer in the node's `is_ready`. -/
def check_all_nodes_ready (s : CameraManager) (probe : ℕ → Bool) :
    List (ℕ × Bool) × CameraManager :=
  (s.nodes.map (fun p =>
      (p.1, if p.2.status == "online" then probe p.1 else false)),
   { s with nodes := s.nodes.map (fun p =>
      (p.1, { p.2 with is_ready := if p.2.status == "online" then probe p.1 else false })) })

/-- Ready set derived from the readiness snapshot, in snapshot order
(`[node_id for node_id, ready in ready_status.items() if ready]`). -/
def readySet (s : CameraManager) (probe : ℕ → Bool) : List ℕ :=
  (((check_all_nodes_ready s probe).1.filter (fun p => p.2)).map Prod.fst)

/-- Result of one HTTP capture-command send as seen by the dispatch loop:
either the node's parsed `success` boolean, or an exception reaching the
loop's `try`. -/
inductive SendOutcome where
  | ok (b : Bool)
  | exn
deriving Repr, DecidableEq

/-- Boolean recorded for a send outcome (`send_capture_command` and the
dispatch loop both turn failures into `False`). -/
def outcomeBool : SendOutcome → Bool
  | .ok b => b
  | .exn => false

/-- `CameraManager.send_capture_command`: unknown nodes yield `False`
immediately; otherwise the HTTP send outcome decides, with exceptions
caught and turned into `False`. -/
def send_capture_command (s : CameraManager) (send : ℕ → SendOutcome)
    (node_id : ℕ) : Bool :=
  if node_id ∈ nodeIds s then outcomeBool (send node_id) else false

/-- Aggregate result of `CameraManager.trigger_scheduled_capture`. The
source returns a dict whose keys differ between the failure and success
branches; absent keys keep their defaults here. -/
structure TriggerResult where
  success : Bool
  error : Option String := none
  ready_status : List (ℕ × Bool) := []
  session_id : Option String := none
  capture_time : Option ℚ := none
  ready_nodes : List ℕ := []
  send_results : List (ℕ × Bool) := []
deriving Repr, DecidableEq

/-- `CameraManager.trigger_scheduled_capture`: snapshot readiness, fail
with the snapshot when nothing is ready, otherwise schedule a shared
capture time and send the one command to every ready node in turn,
recording each outcome. Besides the result and the post-state it returns
the wire log of attempted command sends `(node_id, capture_time,
session_id)`, an observation used to state dispatch claims. -/
def trigger_scheduled_capture (s : CameraManager) (probe : ℕ → Bool)
    (send : ℕ → SendOutcome) (c : NTPClient) (attempts : List (ℚ × Option ℚ))
    (localTime : ℚ) (session_id : String) (delay_seconds : ℚ) :
    TriggerResult × List (ℕ × ℚ × String) × CameraManager :=
  let checked := check_all_nodes_ready s probe
  let ready_status := checked.1
  let s1 := checked.2
  let ready_nodes := (ready_status.filter (fun p => p.2)).map Prod.fst
  if ready_nodes.isEmpty then
    ({ success := false, error := some "no ready camera nodes",
       ready_status := ready_status }, [], s1)
  else
    let capture_time :=
      (schedule_capture c attempts localTime session_id delay_seconds).2.2
    let send_results :=
      ready_nodes.map (fun i => (i, send_capture_command s1 send i))
    ({ success := true, session_id := some session_id,
       capture_time := some capture_time, ready_nodes := ready_nodes,
       send_results := send_results },
     ready_nodes.map (fun i => (i, capture_time, session_id)), s1)

/-! ## Device-side capture agent (`src/camera_node/node_server.py`) -/

/-- Python falsiness of the optional `capture_time` field (`not capture_time`
is true for a missing field and for `0.0`). -/
def falsyTime : Option ℚ → Bool
  | none => true
  | some q => q == 0

/-- Python falsiness of the optional `session_id` field (missing or
empty). -/
def falsySession : Option String → Bool
  | none => true
  | some s => s == ""

/-- State of `NodeServer` relevant to the capture protocol: the keys of the
pending `scheduled_captures` dict. -/
structure NodeServer where
  node_id : ℕ := 1
  scheduled_captures : List String := []
deriving Repr, DecidableEq

/-- Dict upsert `self.scheduled_captures[session_id] = task`: the key is
appended when new, and an existing key keeps its position. -/
def insertSession (pending : List String) (session_id : String) : List String :=
  if session_id ∈ pending then pending else pending ++ [session_id]

/-- `NodeServer.capture_handler`: reject with HTTP 400 when either field is
falsy or the camera is not ready; otherwise answer 200/success and track
the asynchronous wait under the session id. Returns
`((http_status, success), new_state)`. -/
def capture_handler (srv : NodeServer) (capture_time : Option ℚ)
    (session_id : Option String) (ready : Bool) : (ℕ × Bool) × NodeServer :=
  if falsyTime capture_time || falsySession session_id then ((400, false), srv)
  else if !ready then ((400, false), srv)
  else
    ((200, true),
     { srv with scheduled_captures :=
        insertSession srv.scheduled_captures (session_id.getD "") })

/-- `NodeServer.execute_scheduled_capture`: whatever the wait, capture and
upload did (`raised` models an exception escaping the `try`, the other
flags the capture/upload outcomes), the `finally` block deletes the
pending-session entry. -/
def execute_scheduled_capture (srv : NodeServer) (session_id : String)
    (raised captureOk uploadOk : Bool) : NodeServer :=
  let _ := (raised, captureOk, uploadOk)
  { srv with scheduled_captures :=
      if session_id ∈ srv.scheduled_captures then
        srv.scheduled_captures.erase session_id
      else srv.scheduled_captures }

/-! ## Concrete sample states (used to exercise the claims) -/

/-- Sample device 1: online, preview device, silent since time 0. -/
def sampleNode1 : CameraNode :=
  { node_id := 1, ip_address := "a", status := "online",
    last_heartbeat := 0, is_ready := true }

/-- Sample device 2: online, heartbeat received at time 90. -/
def sampleNode2 : CameraNode :=
  { node_id := 2, ip_address := "b", status := "online",
    last_heartbeat := 90, is_ready := true }

/-- Sample two-device registry: devices 1 and 2, preview on device 1. -/
def sampleRegistry : CameraManager :=
  { nodes := [(1, sampleNode1), (2, sampleNode2)],
    current_preview_node := some 1, next_node_id := 3 }

/-! ## Helper lemmas -/

/-- Closed form of the wait loop when the fuel dominates the remaining
time: the loop always completes, firing the callback exactly once, and
its sleeps are some number of 1-second sleeps followed by one final sleep
in `(0, 1]` that adds up to the remaining time. -/
lemma waitGo_spec (n : ℕ) : ∀ d : ℚ, d ≤ (n : ℚ) →
    (waitGo (n + 1) d).2 = 1 ∧
    (d ≤ 0 → (waitGo (n + 1) d).1 = []) ∧
    (0 < d → ∃ k : ℕ, ∃ x : ℚ,
      (waitGo (n + 1) d).1 = List.replicate k 1 ++ [x] ∧
      0 < x ∧ x ≤ 1 ∧ (k : ℚ) + x = d) := by
  induction n with
  | zero =>
    intro d hd
    have h0 : d ≤ 0 := by exact_mod_cast hd
    exact ⟨by simp [waitGo, h0], fun _ => by simp [waitGo, h0],
      fun hlt => absurd h0 (not_le.mpr hlt)⟩
  | succ n ih =>
    intro d hd
    by_cases h0 : d ≤ 0
    · exact ⟨by simp [waitGo, h0], fun _ => by simp [waitGo, h0],
        fun hlt => absurd h0 (not_le.mpr hlt)⟩
    · push_neg at h0
      have hn0 : ¬ d ≤ 0 := not_le.mpr h0
      by_cases h1 : 1 < d
      · have hd' : d - 1 ≤ (n : ℚ) := by push_cast at hd ⊢; linarith
        obtain ⟨hc, -, hpos⟩ := ih (d - 1) hd'
        obtain ⟨k, x, hform, hx0, hx1, hsum⟩ := hpos (by linarith)
        have hunf : waitGo (n + 1 + 1) d =
            (1 :: (waitGo (n + 1) (d - 1)).1, (waitGo (n + 1) (d - 1)).2) := by
          simp [waitGo, hn0, h1]
        refine ⟨by rw [hunf]; exact hc, fun hle => absurd hle hn0, ?_⟩
        intro _
        refine ⟨k + 1, x, ?_, hx0, hx1, by push_cast; linarith⟩
        rw [hunf, hform]
        simp [List.replicate_succ]
      · push_neg at h1
        have hn1 : ¬ 1 < d := not_lt.mpr h1
        have hunf : waitGo (n + 1 + 1) d =
            (d :: (waitGo (n + 1) 0).1, (waitGo (n + 1) 0).2) := by
          simp [waitGo, hn0, hn1]
        have hzero : waitGo (n + 1) 0 = ([], 1) := by simp [waitGo]
        refine ⟨by rw [hunf]; simp [hzero], fun hle => absurd hle hn0, ?_⟩
        intro _
        refine ⟨0, d, ?_, h0, h1, by simp⟩
        rw [hunf]
        simp [hzero]

/-- Remaining time is dominated by the fuel chosen in
`wait_for_capture_time`. -/
lemma ceil_toNat_bound (d : ℚ) : d ≤ ((⌈d⌉.toNat : ℕ) : ℚ) := by
  by_cases h : d ≤ 0
  · exact le_trans h (by positivity)
  · push_neg at h
    have h1 : (0 : ℤ) ≤ ⌈d⌉ := Int.ceil_nonneg h.le
    have h2 : d ≤ (⌈d⌉ : ℚ) := Int.le_ceil d
    rw [show ((⌈d⌉.toNat : ℕ) : ℚ) = ((⌈d⌉.toNat : ℤ) : ℚ) by push_cast; ring,
      Int.toNat_of_nonneg h1]
    exact h2

/-! ## Claim C3 -/

/-- C3: `wait_until(t, action)` invokes the action exactly once and never
before the synchronized clock reaches `t` (the clock when the action fires
is `now + sum of sleeps = max t now ≥ t` whenever `t ≥ now`); if `t` is
already in the past it fires immediately (no sleeps) and without error;
while the remaining time exceeds 1 second it sleeps in 1-second
increments (every sleep except the final one is exactly 1 second), and
the final sleep is the remainder, at most 1 second. -/
theorem wait_fires_once_never_early (t now : ℚ) :
    (wait_for_capture_time t now).2 = 1 ∧
    now + (wait_for_capture_time t now).1.sum = max t now ∧
    t ≤ now + (wait_for_capture_time t now).1.sum ∧
    (t ≤ now → (wait_for_capture_time t now).1 = []) ∧
    (∀ x ∈ (wait_for_capture_time t now).1.dropLast, x = 1) ∧
    (∀ x ∈ (wait_for_capture_time t now).1, 0 < x ∧ x ≤ 1) := by
  have hspec := waitGo_spec (⌈t - now⌉.toNat) (t - now) (ceil_toNat_bound _)
  obtain ⟨hcount, hempty, hform⟩ := hspec
  unfold wait_for_capture_time
  by_cases hle : t ≤ now
  · have hd : t - now ≤ 0 := by linarith
    have he := hempty hd
    refine ⟨hcount, ?_, ?_, fun _ => he, ?_, ?_⟩
    · rw [he]; simp [max_eq_right hle]
    · rw [he]; simpa using hle
    · rw [he]; simp
    · rw [he]; simp
  · push_neg at hle
    have hd : 0 < t - now := by linarith
    obtain ⟨k, x, hform', hx0, hx1, hsum⟩ := hform hd
    have hsums : (waitGo (⌈t - now⌉.toNat + 1) (t - now)).1.sum = t - now := by
      rw [hform']
      simp [List.sum_replicate, nsmul_eq_mul]
      linarith
    refine ⟨hcount, ?_, ?_, fun hle' => absurd hle' (not_le.mpr hle), ?_, ?_⟩
    · rw [hsums, max_eq_left hle.le]; ring
    · rw [hsums]; linarith
    · rw [hform', List.dropLast_concat]
      intro y hy
      exact List.eq_of_mem_replicate hy
    · rw [hform']
      intro y hy
      rcases List.mem_append.mp hy with hy | hy
      · have := List.eq_of_mem_replicate hy
        subst this; exact ⟨one_pos, le_refl 1⟩
      · rw [List.mem_singleton.mp hy]; exact ⟨hx0, hx1⟩

/-- C3 witness: with `t = 3, now = 1` the loop sleeps a total of 2 seconds
and fires once; with `t = 1, now = 5` (deadline in the past) it fires
immediately with no sleeps. -/
theorem wait_fires_once_never_early_witness :
    ((wait_for_capture_time 3 1).2 = 1 ∧
      (1 : ℚ) + (wait_for_capture_time 3 1).1.sum = 3) ∧
    (wait_for_capture_time 1 5).1 = [] := by
  refine ⟨⟨(wait_fires_once_never_early 3 1).1, ?_⟩,
    (wait_fires_once_never_early 1 5).2.2.2.1 (by norm_num)⟩
  have h := (wait_fires_once_never_early 3 1).2.1
  rw [h]; norm_num

/-! ## Claim C4 -/

/-- C4: `schedule_capture` triggers a sync exactly when the clock is not
synchronized, then returns the (post-sync) synchronized time plus the
delay; for delay ≥ 0 the returned capture time is at least the
synchronized time at the call, and for a fixed synchronized time it is
strictly increasing in the delay. -/
theorem schedule_capture_spec (c : NTPClient) (attempts : List (ℚ × Option ℚ))
    (localTime : ℚ) (sessionId : String) (delay : ℚ) :
    (schedule_capture c attempts localTime sessionId delay).2.1
      = !(is_synchronized c localTime) ∧
    (schedule_capture c attempts localTime sessionId delay).2.2
      = get_synchronized_time
          (schedule_capture c attempts localTime sessionId delay).1 localTime
        + delay ∧
    (0 ≤ delay →
      get_synchronized_time
          (schedule_capture c attempts localTime sessionId delay).1 localTime
        ≤ (schedule_capture c attempts localTime sessionId delay).2.2) ∧
    (∀ d1 d2 : ℚ, d1 < d2 →
      (schedule_capture c attempts localTime sessionId d1).2.2
        < (schedule_capture c attempts localTime sessionId d2).2.2) := by
  have hkey : ∀ d : ℚ, (schedule_capture c attempts localTime sessionId d).2.2
      = get_synchronized_time
          (schedule_capture c attempts localTime sessionId d).1 localTime + d := by
    intro d
    by_cases hs : is_synchronized c localTime <;> simp [schedule_capture, hs]
  have hcl : ∀ d : ℚ, (schedule_capture c attempts localTime sessionId d).1
      = (schedule_capture c attempts localTime sessionId delay).1 := by
    intro d
    by_cases hs : is_synchronized c localTime <;> simp [schedule_capture, hs]
  refine ⟨?_, hkey delay, ?_, ?_⟩
  · by_cases hs : is_synchronized c localTime <;> simp [schedule_capture, hs]
  · intro h
    rw [hkey delay]
    linarith
  · intro d1 d2 h
    rw [hkey d1, hkey d2, hcl d1, hcl d2]
    linarith

/-- C4 witness: an unsynchronized client whose sole time source answers
remote time 7 at local time 5 (offset 2); scheduling at local time 10
with delay 2 triggers the sync and yields capture time 14 ≥ 12, and delay
2 gives a strictly later capture time than delay 1. -/
theorem schedule_capture_spec_witness :
    (schedule_capture {} [(5, some 7)] 10 "sid" 2).2.1 = true ∧
    (schedule_capture {} [(5, some 7)] 10 "sid" 2).2.2 = 14 ∧
    get_synchronized_time (schedule_capture {} [(5, some 7)] 10 "sid" 2).1 10
      ≤ (schedule_capture {} [(5, some 7)] 10 "sid" 2).2.2 ∧
    (schedule_capture {} [(5, some 7)] 10 "sid" 1).2.2
      < (schedule_capture {} [(5, some 7)] 10 "sid" 2).2.2 := by
  have h := schedule_capture_spec {} [(5, some 7)] 10 "sid" 2
  refine ⟨?_, ?_, h.2.2.1 (by norm_num), h.2.2.2 1 2 (by norm_num)⟩
  · norm_num [schedule_capture, is_synchronized]
  · norm_num [schedule_capture, is_synchronized, sync_time, get_synchronized_time]

/-! ## Claim C5 -/

/-- C5 counterexample: a time source that *does* respond, but with remote
time `0.0`, does not stop the scan — `sync_time` reports failure and
leaves the stored offset and last-sync time unchanged, contradicting the
claim that it stops at the first source that responds. -/
theorem sync_time_zero_response_counterexample :
    (some (0 : ℚ)).isSome = true ∧
    sync_time { time_offset := 1, last_sync := 2 } [(5, some 0)]
      = ({ time_offset := 1, last_sync := 2 }, false) := by
  exact ⟨rfl, rfl⟩

/-- C5 (amended): `sync_time` scans the sources in list order and stops at
the first source that responds with a *nonzero* remote time (a response of
exactly 0 is falsy in the guard and treated as a failure), setting
`offset = remote_time - local_time` and `last_sync = local_time` for that
attempt and returning success irrespective of the later sources; if every
source fails (or answers 0) it returns failure and leaves the previously
stored offset and last-sync time completely unchanged. -/
theorem sync_time_first_success_spec (c : NTPClient)
    (pre rest : List (ℚ × Option ℚ)) (t0 r : ℚ)
    (hpre : ∀ p ∈ pre, p.2 = none ∨ p.2 = some 0) :
    (r ≠ 0 → sync_time c (pre ++ (t0, some r) :: rest)
        = ({ time_offset := r - t0, last_sync := t0 }, true)) ∧
    sync_time c pre = (c, false) := by
  induction pre with
  | nil =>
    refine ⟨fun hr => ?_, rfl⟩
    simp [sync_time, hr]
  | cons a pre' ih =>
    obtain ⟨ha, hpre'⟩ := List.forall_mem_cons.mp hpre
    obtain ⟨alt, aresp⟩ := a
    obtain ⟨hstop, hfail⟩ := ih hpre'
    rcases ha with ha | ha <;> simp only at ha <;> subst ha
    · exact ⟨fun hr => by simpa [sync_time] using hstop hr,
        by simpa [sync_time] using hfail⟩
    · exact ⟨fun hr => by simpa [sync_time] using hstop hr,
        by simpa [sync_time] using hfail⟩

/-- C5 witness: after one genuine network failure, the second source
answers remote time 7 at local time 5; sync succeeds with offset 2 and
does not consult the third source, while a scan of the failing prefix
alone leaves the client untouched. -/
theorem sync_time_first_success_spec_witness :
    sync_time { time_offset := 1, last_sync := 2 }
        ([(3, none)] ++ (5, some 7) :: [(9, some 11)])
      = ({ time_offset := 2, last_sync := 5 }, true) ∧
    sync_time { time_offset := 1, last_sync := 2 } [(3, none)]
      = ({ time_offset := 1, last_sync := 2 }, false) := by
  have h := sync_time_first_success_spec { time_offset := 1, last_sync := 2 }
    [(3, none)] [(9, some 11)] 5 7 (by simp)
  refine ⟨?_, h.2⟩
  have hx := h.1 (by norm_num)
  norm_num at hx
  simpa using hx

/-! ## Registry helper lemmas -/

lemma find?_map_update_other (l : List (ℕ × CameraNode)) (node_id e : ℕ)
    (f : CameraNode → CameraNode) (h : e ≠ node_id) :
    (l.map (fun p => if p.1 == node_id then (p.1, f p.2) else p)).find?
        (fun p => p.1 == e)
      = l.find? (fun p => p.1 == e) := by
  rw [List.find?_map]
  have hcomp : ((fun p : ℕ × CameraNode => p.1 == e) ∘
      (fun p => if p.1 == node_id then (p.1, f p.2) else p)) = (fun p => p.1 == e) := by
    funext p
    by_cases hp : p.1 = node_id <;> simp [Function.comp, hp]
  rw [hcomp]
  cases hfind : l.find? (fun p => p.1 == e) with
  | none => simp
  | some p =>
    have hkey : p.1 = e := by simpa using List.find?_some hfind
    have hne : (p.1 == node_id) = false := beq_eq_false_iff_ne.mpr (hkey ▸ h)
    simp [hne]
    exact fun hc => absurd (hkey ▸ hc) h

lemma find?_map_update_self (l : List (ℕ × CameraNode)) (node_id : ℕ)
    (f : CameraNode → CameraNode) :
    (l.map (fun p => if p.1 == node_id then (p.1, f p.2) else p)).find?
        (fun p => p.1 == node_id)
      = (l.find? (fun p => p.1 == node_id)).map (fun p => (p.1, f p.2)) := by
  rw [List.find?_map]
  have hcomp : ((fun p : ℕ × CameraNode => p.1 == node_id) ∘
      (fun p => if p.1 == node_id then (p.1, f p.2) else p))
      = (fun p => p.1 == node_id) := by
    funext p
    by_cases hp : p.1 = node_id <;> simp [Function.comp, hp]
  rw [hcomp]
  cases hfind : l.find? (fun p => p.1 == node_id) with
  | none => simp
  | some p =>
    have hkey : p.1 = node_id := by simpa using List.find?_some hfind
    simp [hkey]

lemma getNode_updateNode_self (s : CameraManager) (node_id : ℕ)
    (f : CameraNode → CameraNode) :
    getNode (updateNode s node_id f) node_id = (getNode s node_id).map f := by
  simp only [getNode, updateNode, find?_map_update_self]
  cases l : s.nodes.find? (fun p => p.1 == node_id) <;> simp

lemma getNode_updateNode_other (s : CameraManager) (node_id e : ℕ)
    (f : CameraNode → CameraNode) (h : e ≠ node_id) :
    getNode (updateNode s node_id f) e = getNode s e := by
  simp only [getNode, updateNode, find?_map_update_other _ _ _ _ h]

lemma nodeIds_updateNode (s : CameraManager) (node_id : ℕ)
    (f : CameraNode → CameraNode) :
    nodeIds (updateNode s node_id f) = nodeIds s := by
  simp only [nodeIds, updateNode, List.map_map]
  apply List.map_congr_left
  intro p _
  by_cases h : p.1 = node_id <;> simp [h]

lemma updateNode_preview (s : CameraManager) (node_id : ℕ)
    (f : CameraNode → CameraNode) :
    (updateNode s node_id f).current_preview_node = s.current_preview_node := rfl

lemma updateNode_next (s : CameraManager) (node_id : ℕ)
    (f : CameraNode → CameraNode) :
    (updateNode s node_id f).next_node_id = s.next_node_id := rfl

lemma switch_nodes (s : CameraManager) :
    (switch_to_next_online_node s).nodes = s.nodes := by
  unfold switch_to_next_online_node
  cases s.nodes.find? (fun p => p.2.status == "online") <;> rfl

lemma switch_next (s : CameraManager) :
    (switch_to_next_online_node s).next_node_id = s.next_node_id := by
  unfold switch_to_next_online_node
  cases s.nodes.find? (fun p => p.2.status == "online") <;> rfl

lemma switch_preview (s : CameraManager) :
    (switch_to_next_online_node s).current_preview_node = firstOnlineId s := by
  unfold switch_to_next_online_node firstOnlineId
  cases s.nodes.find? (fun p => p.2.status == "online") <;> rfl

lemma nodeIds_node_offline (s : CameraManager) (d : ℕ) :
    nodeIds (node_offline s d).2 = nodeIds s := by
  unfold node_offline
  by_cases h : d ∈ nodeIds s
  · rw [if_pos h]
    dsimp only
    split
    · calc nodeIds (switch_to_next_online_node
            (updateNode s d fun n => { n with status := "offline", is_ready := false }))
          = nodeIds (updateNode s d fun n => { n with status := "offline", is_ready := false }) := by
            unfold nodeIds
            rw [switch_nodes]
        _ = nodeIds s := nodeIds_updateNode s d _
    · exact nodeIds_updateNode s d _
  · rw [if_neg h]

/-- Characterization of the id-skipping loop: its result is not in `ks`,
is at least the starting point, and every id it skipped over is in `ks`. -/
lemma allocFrom_spec (ks : List ℕ) (next : ℕ) :
    allocFrom ks next ∉ ks ∧ next ≤ allocFrom ks next ∧
    ∀ m, next ≤ m → m < allocFrom ks next → m ∈ ks := by
  refine allocFrom.induct ks (fun next => allocFrom ks next ∉ ks ∧
    next ≤ allocFrom ks next ∧
    ∀ m, next ≤ m → m < allocFrom ks next → m ∈ ks) ?_ ?_ next
  · intro x hx ih
    have hstep : allocFrom ks x = allocFrom ks (x + 1) := by
      rw [allocFrom]
      simp [hx]
    obtain ⟨h1, h2, h3⟩ := ih
    refine ⟨by rw [hstep]; exact h1, by rw [hstep]; omega, ?_⟩
    intro m hm1 hm2
    rw [hstep] at hm2
    by_cases hmx : m = x
    · subst hmx; exact hx
    · exact h3 m (by omega) hm2
  · intro x hx
    have hstep : allocFrom ks x = x := by
      rw [allocFrom]
      simp [hx]
    exact ⟨by rw [hstep]; exact hx, by rw [hstep], fun m hm1 hm2 => by
      rw [hstep] at hm2; omega⟩

lemma find?_append_of_not_mem (l1 l2 : List (ℕ × CameraNode)) (e : ℕ)
    (h : e ∉ l1.map Prod.fst) :
    (l1 ++ l2).find? (fun p => p.1 == e) = l2.find? (fun p => p.1 == e) := by
  induction l1 with
  | nil => rfl
  | cons a t ih =>
    have ha : ¬ a.1 = e := by
      intro hh
      exact h (by simp [hh.symm])
    have ht : e ∉ t.map Prod.fst := fun hh => h (by simp [hh])
    rw [List.cons_append, List.find?_cons_of_neg _ (by simp [ha]), ih ht]

lemma register_node_result (s : CameraManager) (ip : String) (port : ℕ)
    (caps : List String) (now : ℚ) (hip : ip ≠ "") :
    (register_node s ip port caps now).1 = (true, (allocate_node_id s).1) ∧
    (register_node s ip port caps now).2.nodes
      = s.nodes ++ [((allocate_node_id s).1,
          { node_id := (allocate_node_id s).1, ip_address := ip,
            node_port := port, status := "online", last_heartbeat := now,
            is_ready := false, capabilities := caps })] ∧
    (register_node s ip port caps now).2.next_node_id
      = (allocate_node_id s).1 + 1 := by
  unfold register_node
  simp only [hip, if_false]
  split <;> simp [allocate_node_id]

/-- Reachability invariant of the id allocator: ids are positive and every
positive id below the counter is already tracked. -/
def idInv (s : CameraManager) : Prop :=
  1 ≤ s.next_node_id ∧ ∀ k, 1 ≤ k → k < s.next_node_id → k ∈ nodeIds s

/-- Shape of the registry after `N` fresh registrations into an empty
registry: ids `1..N` in order, counter at `N + 1`, every node online. -/
lemma registerN_spec (N : ℕ) :
    nodeIds (registerN N) = List.range' 1 N ∧
    (registerN N).next_node_id = N + 1 ∧
    ∀ p ∈ (registerN N).nodes, p.2.status = "online" := by
  induction N with
  | zero => exact ⟨rfl, rfl, by simp [registerN]⟩
  | succ n ih =>
    obtain ⟨hids, hnext, hstat⟩ := ih
    have hip : ("192.168.1.10" : String) ≠ "" := by simp
    have halloc : (allocate_node_id (registerN n)).1 = n + 1 := by
      unfold allocate_node_id
      rw [hids, hnext, allocFrom]
      simp [List.mem_range'_1]
      intro hh
      exact absurd hh (by omega)
    obtain ⟨-, hnodes, hnext'⟩ := register_node_result (registerN n)
      "192.168.1.10" 8084 [] 0 hip
    refine ⟨?_, ?_, ?_⟩
    · show nodeIds (register_node (registerN n) "192.168.1.10" 8084 [] 0).2
        = List.range' 1 (n + 1)
      unfold nodeIds
      rw [hnodes, halloc, List.map_append]
      rw [show (List.range' 1 (n + 1)) = List.range' 1 n ++ [1 + n] from
        List.range'_1_concat 1 n]
      unfold nodeIds at hids
      rw [hids]
      simp [Nat.add_comm]
    · show (register_node (registerN n) "192.168.1.10" 8084 [] 0).2.next_node_id
        = n + 1 + 1
      rw [hnext', halloc]
    · show ∀ p ∈ (register_node (registerN n) "192.168.1.10" 8084 [] 0).2.nodes,
        p.2.status = "online"
      rw [hnodes]
      intro p hp
      rcases List.mem_append.mp hp with hp | hp
      · exact hstat p hp
      · rw [List.mem_singleton.mp hp]

/-- Under the reachability invariant, the allocator returns the smallest
positive id not currently held by a tracked device. -/
lemma allocate_smallest (s : CameraManager) (hinv : idInv s) :
    (allocate_node_id s).1 ∉ nodeIds s ∧ 1 ≤ (allocate_node_id s).1 ∧
    ∀ m, 1 ≤ m → m < (allocate_node_id s).1 → m ∈ nodeIds s := by
  obtain ⟨h1, h2⟩ := hinv
  obtain ⟨ha1, ha2, ha3⟩ := allocFrom_spec (nodeIds s) s.next_node_id
  have hdef : (allocate_node_id s).1 = allocFrom (nodeIds s) s.next_node_id := rfl
  rw [hdef]
  refine ⟨ha1, by omega, ?_⟩
  intro m hm1 hm2
  by_cases hlt : m < s.next_node_id
  · exact h2 m hm1 hlt
  · exact ha3 m (by omega) hm2

/-! ## Claim C6 -/

/-- C6: in any reachable registry state (captured by `idInv`, which holds
initially and is preserved because devices are only ever added),
`allocate_node_id`/`register_node` hand out the smallest unused positive
id and create the device in the `online` state; `N` registrations into an
empty registry yield exactly the ids `1..N` (distinct, gapless, all
online); and registering after marking a tracked device offline never
reuses that device's id, because offline devices stay tracked. -/
theorem register_allocates_smallest_unused :
    (∀ s : CameraManager, idInv s →
      (allocate_node_id s).1 ∉ nodeIds s ∧ 1 ≤ (allocate_node_id s).1 ∧
      ∀ m, 1 ≤ m → m < (allocate_node_id s).1 → m ∈ nodeIds s) ∧
    (∀ (s : CameraManager) (ip : String) (port : ℕ) (caps : List String)
        (now : ℚ), idInv s → ip ≠ "" →
      ∃ nid, (register_node s ip port caps now).1 = (true, nid) ∧
        nid ∉ nodeIds s ∧ 1 ≤ nid ∧ (∀ m, 1 ≤ m → m < nid → m ∈ nodeIds s) ∧
        getNode (register_node s ip port caps now).2 nid
          = some { node_id := nid, ip_address := ip, node_port := port,
                   status := "online", last_heartbeat := now,
                   is_ready := false, capabilities := caps }) ∧
    (∀ N, nodeIds (registerN N) = List.range' 1 N ∧
      ∀ p ∈ (registerN N).nodes, p.2.status = "online") ∧
    (∀ (s : CameraManager) (d : ℕ) (ip : String) (port : ℕ)
        (caps : List String) (now : ℚ), d ∈ nodeIds s → ip ≠ "" →
      (register_node (node_offline s d).2 ip port caps now).1.2 ≠ d) := by
  refine ⟨allocate_smallest, ?_, ?_, ?_⟩
  · intro s ip port caps now hinv hip
    obtain ⟨hA1, hA2, hA3⟩ := allocate_smallest s hinv
    obtain ⟨hres, hnodes, -⟩ := register_node_result s ip port caps now hip
    refine ⟨(allocate_node_id s).1, hres, hA1, hA2, hA3, ?_⟩
    unfold getNode
    rw [hnodes, find?_append_of_not_mem _ _ _ hA1,
      List.find?_cons_of_pos _ (by simp)]
    rfl
  · intro N
    obtain ⟨h1, -, h3⟩ := registerN_spec N
    exact ⟨h1, h3⟩
  · intro s d ip port caps now hd hip
    obtain ⟨hres, -, -⟩ := register_node_result ((node_offline s d).2) ip port caps now hip
    have halloc : (register_node (node_offline s d).2 ip port caps now).1.2
        = (allocate_node_id (node_offline s d).2).1 := by rw [hres]
    rw [halloc]
    intro hcontra
    have hnotin := (allocFrom_spec (nodeIds (node_offline s d).2)
      (node_offline s d).2.next_node_id).1
    have : (allocate_node_id (node_offline s d).2).1
        ∉ nodeIds (node_offline s d).2 := hnotin
    rw [nodeIds_node_offline, hcontra] at this
    exact this hd

/-- C6 witness: in the concrete three-device registry with ids 1,2,3 the
allocator's next id is not already tracked, and after marking device 2
offline a fresh registration does not reuse id 2. -/
theorem register_allocates_smallest_unused_witness :
    ((allocate_node_id
        { nodes := [(1, { node_id := 1, ip_address := "a", status := "online" }),
                    (2, { node_id := 2, ip_address := "b", status := "online" }),
                    (3, { node_id := 3, ip_address := "c", status := "online" })],
          current_preview_node := some 1, next_node_id := 4 }).1
      ∉ nodeIds
        { nodes := [(1, { node_id := 1, ip_address := "a", status := "online" }),
                    (2, { node_id := 2, ip_address := "b", status := "online" }),
                    (3, { node_id := 3, ip_address := "c", status := "online" })],
          current_preview_node := some 1, next_node_id := 4 }) ∧
    (register_node
        (node_offline
          { nodes := [(1, { node_id := 1, ip_address := "a", status := "online" }),
                      (2, { node_id := 2, ip_address := "b", status := "online" }),
                      (3, { node_id := 3, ip_address := "c", status := "online" })],
            current_preview_node := some 1, next_node_id := 4 } 2).2
        "10.0.0.9" 8084 [] 0).1.2 ≠ 2 := by
  have hinv : idInv
      { nodes := [(1, { node_id := 1, ip_address := "a", status := "online" }),
                  (2, { node_id := 2, ip_address := "b", status := "online" }),
                  (3, { node_id := 3, ip_address := "c", status := "online" })],
        current_preview_node := some 1, next_node_id := 4 } := by
    refine ⟨by norm_num, ?_⟩
    intro k h1 h2
    simp only [idInv] at h2 ⊢
    interval_cases k <;> decide
  exact ⟨(register_allocates_smallest_unused.1 _ hinv).1,
    register_allocates_smallest_unused.2.2.2 _ 2 "10.0.0.9" 8084 [] 0
      (by decide) (by decide)⟩

/-! ## Claim C10 -/

/-- C10: a heartbeat update or an offline notice for an id that is not in
the registry is a silent no-op: the whole registry state (every device
record, the preview/reference pointer and the id counter) is returned
unchanged, no record is created, and the offline notice still reports
success (no error surfaces to the caller). -/
theorem unknown_id_heartbeat_offline_noop (s : CameraManager) (node_id : ℕ)
    (is_ready : Bool) (now : ℚ) (h : node_id ∉ nodeIds s) :
    update_heartbeat s node_id is_ready now = s ∧
    node_offline s node_id = (true, s) := by
  exact ⟨by simp [update_heartbeat, h], by simp [node_offline, h]⟩

/-- C10 witness: a heartbeat and an offline notice for untracked id 5
leave the one-device registry exactly as it was. -/
theorem unknown_id_heartbeat_offline_noop_witness :
    update_heartbeat
        { nodes := [(1, { node_id := 1, ip_address := "a", status := "online" })],
          current_preview_node := some 1, next_node_id := 2 } 5 true 7
      = { nodes := [(1, { node_id := 1, ip_address := "a", status := "online" })],
          current_preview_node := some 1, next_node_id := 2 } ∧
    node_offline
        { nodes := [(1, { node_id := 1, ip_address := "a", status := "online" })],
          current_preview_node := some 1, next_node_id := 2 } 5
      = (true,
        { nodes := [(1, { node_id := 1, ip_address := "a", status := "online" })],
          current_preview_node := some 1, next_node_id := 2 }) :=
  unknown_id_heartbeat_offline_noop _ 5 true 7 (by decide)

/-! ## Monitor helper lemmas -/

lemma getNode_switch (s : CameraManager) (d : ℕ) :
    getNode (switch_to_next_online_node s) d = getNode s d := by
  unfold getNode
  rw [switch_nodes]

lemma mem_nodeIds_of_getNode {s : CameraManager} {d : ℕ} {n : CameraNode}
    (h : getNode s d = some n) : d ∈ nodeIds s := by
  unfold getNode at h
  cases hf : s.nodes.find? (fun p => p.1 == d) with
  | none => rw [hf] at h; cases h
  | some p =>
    have hkey : p.1 = d := by simpa using List.find?_some hf
    have hmem : p ∈ s.nodes := List.mem_of_find?_eq_some hf
    exact hkey ▸ List.mem_map.mpr ⟨p, hmem, rfl⟩

lemma getNode_node_offline_other (s : CameraManager) (d e : ℕ) (h : e ≠ d) :
    getNode (node_offline s d).2 e = getNode s e := by
  unfold node_offline
  by_cases hm : d ∈ nodeIds s
  · rw [if_pos hm]
    dsimp only
    split
    · rw [getNode_switch, getNode_updateNode_other _ _ _ _ h]
    · rw [getNode_updateNode_other _ _ _ _ h]
  · rw [if_neg hm]

lemma getNode_tickStep_other (now : ℚ) (s : CameraManager) (d e : ℕ)
    (h : d ≠ e) :
    getNode (tickStep now s e) d = getNode s d := by
  unfold tickStep
  cases hg : getNode s e with
  | none => rfl
  | some m =>
    dsimp only
    by_cases hA : 30 < now - m.last_heartbeat
    · rw [if_pos hA]
      by_cases hB : m.status ≠ "offline"
      · rw [if_pos hB]
        split
        · rw [getNode_switch, getNode_updateNode_other _ _ _ _ h]
        · rw [getNode_updateNode_other _ _ _ _ h]
      · rw [if_neg hB]
    · rw [if_neg hA]

lemma getNode_foldl_tickStep (now : ℚ) (l : List ℕ) (d : ℕ) (h : d ∉ l) :
    ∀ s : CameraManager, getNode (l.foldl (tickStep now) s) d = getNode s d := by
  induction l with
  | nil => intro s; rfl
  | cons a t ih =>
    intro s
    have hda : d ≠ a := fun hh => h (hh ▸ List.mem_cons_self a t)
    have hdt : d ∉ t := fun hh => h (List.mem_cons_of_mem a hh)
    rw [List.foldl_cons, ih hdt, getNode_tickStep_other now s d a hda]

lemma tickStep_id (now : ℚ) (s : CameraManager) (e : ℕ)
    (h : ∀ m, getNode s e = some m →
      ¬(30 < now - m.last_heartbeat ∧ m.status ≠ "offline")) :
    tickStep now s e = s := by
  unfold tickStep
  cases hg : getNode s e with
  | none => rfl
  | some m =>
    have hm := h m hg
    dsimp only
    by_cases hA : 30 < now - m.last_heartbeat
    · have hB : ¬ m.status ≠ "offline" := fun hB => hm ⟨hA, hB⟩
      rw [if_pos hA, if_neg hB]
    · rw [if_neg hA]

lemma foldl_tickStep_id (now : ℚ) (l : List ℕ) (s : CameraManager)
    (h : ∀ e ∈ l, tickStep now s e = s) :
    l.foldl (tickStep now) s = s := by
  induction l with
  | nil => rfl
  | cons a t ih =>
    rw [List.foldl_cons, h a (List.mem_cons_self a t)]
    exact ih (fun e he => h e (List.mem_cons_of_mem a he))

lemma tickStep_transition (now : ℚ) (s : CameraManager) (d : ℕ)
    (n : CameraNode) (hn : getNode s d = some n)
    (hA : 30 < now - n.last_heartbeat) (hB : n.status ≠ "offline") :
    tickStep now s d
      = (node_offline s d).2 := by
  have hd : d ∈ nodeIds s := mem_nodeIds_of_getNode hn
  unfold tickStep node_offline
  rw [hn]
  dsimp only
  rw [if_pos hA, if_pos hB, if_pos hd]

lemma nodup_split_of_mem {d : ℕ} {l : List ℕ} (hd : d ∈ l) (hnd : l.Nodup) :
    ∃ l1 l2, l = l1 ++ d :: l2 ∧ d ∉ l1 ∧ d ∉ l2 := by
  obtain ⟨l1, l2, rfl⟩ := List.append_of_mem hd
  rw [List.nodup_append] at hnd
  obtain ⟨-, hnd2, hdisj⟩ := hnd
  exact ⟨l1, l2, rfl, fun hh => hdisj hh (List.mem_cons_self d l2),
    (List.nodup_cons.mp hnd2).1⟩

lemma getNode_node_offline_self (s : CameraManager) (d : ℕ)
    (hd : d ∈ nodeIds s) :
    getNode (node_offline s d).2 d
      = (getNode s d).map (fun n => { n with status := "offline", is_ready := false }) := by
  unfold node_offline
  rw [if_pos hd]
  dsimp only
  split
  · rw [getNode_switch, getNode_updateNode_self]
  · rw [getNode_updateNode_self]

/-! ## Claim C8 -/

/-- C8: marking a tracked device offline — by an explicit offline notice,
or by the heartbeat monitor timing it out — sets its state to `offline`
and clears `is_ready`; when the device was the preview/reference device,
the reference is deterministically re-pointed at the first device in
iteration order whose state is `online` (computed on the registry with the
device already marked offline, hence never the device itself), or at
`none` when no device remains online; otherwise the reference is
untouched. The second conjunct shows the timeout path: a monitor tick in
which exactly the device `d` times out is equal, as a whole-state
transformation, to the explicit offline notice for `d`. -/
theorem mark_offline_clears_and_reassigns :
    (∀ (s : CameraManager) (d : ℕ) (n : CameraNode), getNode s d = some n →
      (node_offline s d).1 = true ∧
      getNode (node_offline s d).2 d
        = some { n with status := "offline", is_ready := false } ∧
      (node_offline s d).2.current_preview_node
        = (if s.current_preview_node = some d
           then firstOnlineId (updateNode s d
             (fun m => { m with status := "offline", is_ready := false }))
           else s.current_preview_node)) ∧
    (∀ (s : CameraManager) (now : ℚ) (d : ℕ) (n : CameraNode),
      (nodeIds s).Nodup → getNode s d = some n →
      30 < now - n.last_heartbeat → n.status ≠ "offline" →
      (∀ e ∈ nodeIds s, e ≠ d → ∀ m, getNode s e = some m →
        ¬(30 < now - m.last_heartbeat ∧ m.status ≠ "offline")) →
      heartbeat_monitor_tick s now = (node_offline s d).2) := by
  constructor
  · intro s d n hn
    have hd := mem_nodeIds_of_getNode hn
    refine ⟨?_, ?_, ?_⟩
    · unfold node_offline
      rw [if_pos hd]
    · rw [getNode_node_offline_self s d hd, hn]
      rfl
    · unfold node_offline
      rw [if_pos hd]
      dsimp only
      by_cases hp : s.current_preview_node = some d
      · rw [if_pos (show (updateNode s d _).current_preview_node = some d from hp),
          if_pos hp, switch_preview]
      · rw [if_neg (show ¬ (updateNode s d _).current_preview_node = some d from hp),
          if_neg hp, updateNode_preview]
  · intro s now d n hnd hn hA hB honly
    have hd := mem_nodeIds_of_getNode hn
    obtain ⟨l1, l2, hsplit, hd1, hd2⟩ := nodup_split_of_mem hd hnd
    unfold heartbeat_monitor_tick
    rw [hsplit, List.foldl_append, List.foldl_cons]
    have hfold1 : l1.foldl (tickStep now) s = s := by
      apply foldl_tickStep_id
      intro e he
      apply tickStep_id
      intro m hm
      have hel : e ∈ nodeIds s := by
        rw [hsplit]; exact List.mem_append_left _ he
      have hne : e ≠ d := fun hh => hd1 (hh ▸ he)
      exact honly e hel hne m hm
    rw [hfold1, tickStep_transition now s d n hn hA hB]
    apply foldl_tickStep_id
    intro e he
    apply tickStep_id
    intro m hm
    have hne : e ≠ d := fun hh => hd2 (hh ▸ he)
    rw [getNode_node_offline_other s d e hne] at hm
    have hel : e ∈ nodeIds s := by
      rw [hsplit]; exact List.mem_append_right _ (List.mem_cons_of_mem _ he)
    exact honly e hel hne m hm

/-- C8 witness: in the sample two-device registry (device 1 is the
preview device and has been silent since time 0, device 2 heartbeat at
90), the offline notice for device 1 reports success and re-points the
preview at device 2, and the monitor tick at time 100 performs exactly
that transition. -/
theorem mark_offline_clears_and_reassigns_witness :
    (node_offline sampleRegistry 1).1 = true ∧
    (node_offline sampleRegistry 1).2.current_preview_node = some 2 ∧
    heartbeat_monitor_tick sampleRegistry 100
      = (node_offline sampleRegistry 1).2 := by
  have ha := mark_offline_clears_and_reassigns.1 sampleRegistry 1 sampleNode1 rfl
  refine ⟨ha.1, ?_, ?_⟩
  · rw [ha.2.2]
    decide
  · apply mark_offline_clears_and_reassigns.2 sampleRegistry 100 1 sampleNode1
      (by decide) rfl (by norm_num [sampleNode1]) (by decide)
    intro e he hne m hm
    have he2 : e = 1 ∨ e = 2 := by
      simpa [sampleRegistry, nodeIds] using he
    rcases he2 with rfl | rfl
    · exact absurd rfl hne
    · have hm2 : sampleNode2 = m := Option.some.inj hm
      intro hc
      rw [← hm2] at hc
      have hlt := hc.1
      norm_num [sampleNode2] at hlt

/-! ## Claim C9 -/

/-- C9: one heartbeat-monitor tick at time `now` transitions a tracked,
not-already-offline device to `offline` with `is_ready = false` exactly
when its silence `now - last_heartbeat` exceeds the 30-second threshold
(so the transition happens at the first tick after the threshold
elapses); a device within the threshold, or one already offline, is left
with its record completely unchanged by the tick. -/
theorem heartbeat_timeout_marks_offline (s : CameraManager) (now : ℚ)
    (d : ℕ) (n : CameraNode) (hnd : (nodeIds s).Nodup)
    (hn : getNode s d = some n) :
    (30 < now - n.last_heartbeat → n.status ≠ "offline" →
      getNode (heartbeat_monitor_tick s now) d
        = some { n with status := "offline", is_ready := false }) ∧
    (now - n.last_heartbeat ≤ 30 →
      getNode (heartbeat_monitor_tick s now) d = some n) ∧
    (n.status = "offline" →
      getNode (heartbeat_monitor_tick s now) d = some n) := by
  have hd : d ∈ nodeIds s := mem_nodeIds_of_getNode hn
  obtain ⟨l1, l2, hsplit, hd1, hd2⟩ := nodup_split_of_mem hd hnd
  unfold heartbeat_monitor_tick
  rw [hsplit, List.foldl_append, List.foldl_cons]
  have hs1 : getNode (l1.foldl (tickStep now) s) d = some n := by
    rw [getNode_foldl_tickStep now l1 d hd1 s]
    exact hn
  refine ⟨?_, ?_, ?_⟩
  · intro hA hB
    rw [tickStep_transition now _ d n hs1 hA hB,
      getNode_foldl_tickStep now l2 d hd2,
      getNode_node_offline_self _ d (mem_nodeIds_of_getNode hs1), hs1]
    rfl
  · intro hle
    have hid : tickStep now (l1.foldl (tickStep now) s) d
        = l1.foldl (tickStep now) s := by
      apply tickStep_id
      intro m hm
      rw [hs1] at hm
      obtain rfl : n = m := Option.some.inj hm
      exact fun hc => absurd hc.1 (not_lt.mpr hle)
    rw [hid, getNode_foldl_tickStep now l2 d hd2, hs1]
  · intro hoff
    have hid : tickStep now (l1.foldl (tickStep now) s) d
        = l1.foldl (tickStep now) s := by
      apply tickStep_id
      intro m hm
      rw [hs1] at hm
      obtain rfl : n = m := Option.some.inj hm
      exact fun hc => hc.2 hoff
    rw [hid, getNode_foldl_tickStep now l2 d hd2, hs1]

/-- C9 witness: at time 100, the monitor tick on the sample registry marks
device 1 (silent since time 0, online) offline and not ready, and leaves
device 2 (heartbeat at 90) untouched. -/
theorem heartbeat_timeout_marks_offline_witness :
    getNode (heartbeat_monitor_tick sampleRegistry 100) 1
      = some { sampleNode1 with status := "offline", is_ready := false } ∧
    getNode (heartbeat_monitor_tick sampleRegistry 100) 2 = some sampleNode2 := by
  constructor
  · exact (heartbeat_timeout_marks_offline sampleRegistry 100 1 sampleNode1
      (by decide) rfl).1 (by norm_num [sampleNode1]) (by decide)
  · exact (heartbeat_timeout_marks_offline sampleRegistry 100 2 sampleNode2
      (by decide) rfl).2.1 (by norm_num [sampleNode2])

/-! ## Dispatch helper lemmas -/

lemma check_all_fst (s : CameraManager) (probe : ℕ → Bool) :
    (check_all_nodes_ready s probe).1.map Prod.fst = nodeIds s := by
  unfold check_all_nodes_ready nodeIds
  rw [List.map_map]
  exact List.map_congr_left (fun p _ => rfl)

lemma check_all_length (s : CameraManager) (probe : ℕ → Bool) :
    (check_all_nodes_ready s probe).1.length = s.nodes.length := by
  unfold check_all_nodes_ready
  rw [List.length_map]

lemma check_all_nodeIds (s : CameraManager) (probe : ℕ → Bool) :
    nodeIds (check_all_nodes_ready s probe).2 = nodeIds s := by
  unfold check_all_nodes_ready nodeIds
  rw [List.map_map]
  exact List.map_congr_left (fun p _ => rfl)

lemma readySet_subset (s : CameraManager) (probe : ℕ → Bool) :
    ∀ i ∈ readySet s probe, i ∈ nodeIds s := by
  intro i hi
  unfold readySet at hi
  obtain ⟨p, hp, rfl⟩ := List.mem_map.mp hi
  have hp' := List.mem_of_mem_filter hp
  have hmem : p.1 ∈ (check_all_nodes_ready s probe).1.map Prod.fst :=
    List.mem_map.mpr ⟨p, hp', rfl⟩
  rwa [check_all_fst] at hmem

/-! ## Claim C1 -/

/-- C1 counterexample: on an *empty* registry the readiness check finds
the ready set empty, and `trigger_scheduled_capture` returns a failure
whose per-device readiness map is *empty* — refuting the claim that the
failure result always carries a non-empty readiness map. (No capture
command is sent, as the empty dispatch log shows.) -/
theorem trigger_empty_registry_counterexample :
    (trigger_scheduled_capture {} (fun _ => false) (fun _ => SendOutcome.ok true)
        {} [] 0 "s" 1).1.ready_nodes = [] ∧
    (trigger_scheduled_capture {} (fun _ => false) (fun _ => SendOutcome.ok true)
        {} [] 0 "s" 1).1.success = false ∧
    (trigger_scheduled_capture {} (fun _ => false) (fun _ => SendOutcome.ok true)
        {} [] 0 "s" 1).1.ready_status = [] ∧
    (trigger_scheduled_capture {} (fun _ => false) (fun _ => SendOutcome.ok true)
        {} [] 0 "s" 1).2.1 = [] := by
  exact ⟨rfl, rfl, rfl, rfl⟩

/-- C1 (amended): whenever the readiness check leaves the ready set empty,
`trigger_scheduled_capture` returns a failure (`success = false`) carrying
the full per-device readiness snapshot — one entry per tracked device, in
the registry's iteration order, hence non-empty exactly when at least one
device is tracked (on an empty registry the map is empty) — and no capture
command is sent to any device (empty dispatch log, empty outcome map). -/
theorem trigger_no_ready_fails (s : CameraManager) (probe : ℕ → Bool)
    (send : ℕ → SendOutcome) (c : NTPClient) (attempts : List (ℚ × Option ℚ))
    (localTime : ℚ) (session_id : String) (delay : ℚ)
    (h : readySet s probe = []) :
    (trigger_scheduled_capture s probe send c attempts localTime session_id
        delay).1.success = false ∧
    (trigger_scheduled_capture s probe send c attempts localTime session_id
        delay).1.ready_status.map Prod.fst = nodeIds s ∧
    (trigger_scheduled_capture s probe send c attempts localTime session_id
        delay).1.ready_status.length = s.nodes.length ∧
    (s.nodes ≠ [] →
      (trigger_scheduled_capture s probe send c attempts localTime session_id
        delay).1.ready_status ≠ []) ∧
    (trigger_scheduled_capture s probe send c attempts localTime session_id
        delay).2.1 = [] ∧
    (trigger_scheduled_capture s probe send c attempts localTime session_id
        delay).1.send_results = [] := by
  unfold readySet at h
  simp only [trigger_scheduled_capture]
  rw [h, if_pos (show ([] : List ℕ).isEmpty = true from rfl)]
  refine ⟨rfl, check_all_fst s probe, check_all_length s probe, ?_, rfl, rfl⟩
  intro hne hcontra
  apply hne
  have hlen := check_all_length s probe
  dsimp only at hcontra
  rw [hcontra] at hlen
  exact List.length_eq_zero.mp hlen.symm

/-- C1 witness: a registry with one tracked but non-online device has an
empty ready set; triggering fails with a one-entry readiness snapshot and
an empty dispatch log. -/
theorem trigger_no_ready_fails_witness :
    readySet
        { nodes := [(1, { node_id := 1, ip_address := "a", status := "offline" })],
          current_preview_node := some 1, next_node_id := 2 } (fun _ => true)
      = [] ∧
    (trigger_scheduled_capture
        { nodes := [(1, { node_id := 1, ip_address := "a", status := "offline" })],
          current_preview_node := some 1, next_node_id := 2 }
        (fun _ => true) (fun _ => SendOutcome.ok true) {} [] 0 "s" 1).1.success
      = false ∧
    (trigger_scheduled_capture
        { nodes := [(1, { node_id := 1, ip_address := "a", status := "offline" })],
          current_preview_node := some 1, next_node_id := 2 }
        (fun _ => true) (fun _ => SendOutcome.ok true) {} [] 0 "s" 1).1.ready_status.length
      = 1 ∧
    (trigger_scheduled_capture
        { nodes := [(1, { node_id := 1, ip_address := "a", status := "offline" })],
          current_preview_node := some 1, next_node_id := 2 }
        (fun _ => true) (fun _ => SendOutcome.ok true) {} [] 0 "s" 1).2.1 = [] := by
  have h := trigger_no_ready_fails
    { nodes := [(1, { node_id := 1, ip_address := "a", status := "offline" })],
      current_preview_node := some 1, next_node_id := 2 }
    (fun _ => true) (fun _ => SendOutcome.ok true) {} [] 0 "s" 1 (by decide)
  exact ⟨by decide, h.1, h.2.2.1, h.2.2.2.2.1⟩

/-! ## Claim C2 -/

/-- C2: when the readiness snapshot yields a non-empty ready set, the
dispatch loop attempts a capture-command send to exactly the devices of
that snapshot's ready set, in order — the set is fixed before dispatch
begins, so no device is added afterwards; every attempted command carries
the one shared capture time (the scheduled one) and the one session id;
the returned outcome map has exactly one boolean entry per ready device,
each device's entry depending only on that device's own send outcome
(an exception is recorded as `false`), so one device's failure never
prevents or erases the attempts and records of its siblings. -/
theorem trigger_dispatch_exact (s : CameraManager) (probe : ℕ → Bool)
    (send : ℕ → SendOutcome) (c : NTPClient) (attempts : List (ℚ × Option ℚ))
    (localTime : ℚ) (session_id : String) (delay : ℚ)
    (h : readySet s probe ≠ []) :
    (trigger_scheduled_capture s probe send c attempts localTime session_id
        delay).1.success = true ∧
    (trigger_scheduled_capture s probe send c attempts localTime session_id
        delay).1.ready_nodes = readySet s probe ∧
    (trigger_scheduled_capture s probe send c attempts localTime session_id
        delay).1.session_id = some session_id ∧
    (trigger_scheduled_capture s probe send c attempts localTime session_id
        delay).1.capture_time
      = some (schedule_capture c attempts localTime session_id delay).2.2 ∧
    (trigger_scheduled_capture s probe send c attempts localTime session_id
        delay).2.1
      = (readySet s probe).map (fun i =>
          (i, (schedule_capture c attempts localTime session_id delay).2.2,
            session_id)) ∧
    (trigger_scheduled_capture s probe send c attempts localTime session_id
        delay).1.send_results
      = (readySet s probe).map (fun i => (i, outcomeBool (send i))) := by
  have hub : ∀ i ∈ readySet s probe,
      send_capture_command (check_all_nodes_ready s probe).2 send i
        = outcomeBool (send i) := by
    intro i hi
    unfold send_capture_command
    rw [if_pos]
    rw [check_all_nodeIds]
    exact readySet_subset s probe i hi
  have hne : ((((check_all_nodes_ready s probe).1.filter
      (fun p => p.2)).map Prod.fst).isEmpty) = false := by
    rw [List.isEmpty_eq_false]
    exact h
  simp only [trigger_scheduled_capture]
  rw [hne, if_neg Bool.false_ne_true]
  refine ⟨rfl, rfl, rfl, rfl, rfl, ?_⟩
  exact List.map_congr_left (fun i hi => by rw [hub i hi])

/-- C2 witness: on the sample registry with both devices probed ready,
device 1's send succeeding and device 2's send raising, the trigger
dispatches to exactly devices 1 and 2 with the one scheduled capture time
and session id, and records outcomes `true` and `false` — device 2's
failure does not stop device 1's record nor the aggregate call. -/
theorem trigger_dispatch_exact_witness :
    (trigger_scheduled_capture sampleRegistry (fun _ => true)
        (fun i => if i = 1 then SendOutcome.ok true else SendOutcome.exn)
        {} [] 0 "s" 2).1.ready_nodes = [1, 2] ∧
    (trigger_scheduled_capture sampleRegistry (fun _ => true)
        (fun i => if i = 1 then SendOutcome.ok true else SendOutcome.exn)
        {} [] 0 "s" 2).1.send_results = [(1, true), (2, false)] ∧
    (trigger_scheduled_capture sampleRegistry (fun _ => true)
        (fun i => if i = 1 then SendOutcome.ok true else SendOutcome.exn)
        {} [] 0 "s" 2).2.1
      = [(1, (schedule_capture {} [] 0 "s" 2).2.2, "s"),
         (2, (schedule_capture {} [] 0 "s" 2).2.2, "s")] := by
  have h := trigger_dispatch_exact sampleRegistry (fun _ => true)
    (fun i => if i = 1 then SendOutcome.ok true else SendOutcome.exn)
    {} [] 0 "s" 2 (by decide)
  have hrs : readySet sampleRegistry (fun _ => true) = [1, 2] := by decide
  refine ⟨?_, ?_, ?_⟩
  · rw [h.2.1, hrs]
  · rw [h.2.2.2.2.2, hrs]
    rfl
  · rw [h.2.2.2.2.1, hrs]
    rfl

/-! ## Claim C7 -/

/-- C7 counterexample: a capture command whose `capture_time` field is
*present* but equal to `0` (and whose `session_id` is present and
non-empty) is rejected with HTTP 400 even though the device is ready —
the guard `if not capture_time or not session_id` uses Python falsiness,
not field presence, refuting the claimed "400 if and only if a field is
missing or the device is not ready". -/
theorem capture_handler_zero_time_counterexample :
    (capture_handler {} (some 0) (some "s1") true).1 = (400, false) ∧
    (some (0 : ℚ)) ≠ (none : Option ℚ) ∧
    (some "s1") ≠ (none : Option String) := by
  refine ⟨?_, by simp, by simp⟩
  simp [capture_handler, falsyTime]

/-- C7 (amended): the capture handler responds 400 if and only if the
`capture_time` field is missing *or falsy* (equal to 0), or the
`session_id` field is missing *or empty*, or the device is not ready;
otherwise it responds 200/success and tracks the asynchronous wait under
the session id in the pending set; and completion of the wait/execute
sequence deletes the pending entry regardless of whether the wait raised
or the capture or the upload succeeded. -/
theorem capture_handler_validation_spec :
    (∀ (srv : NodeServer) (ct : Option ℚ) (sid : Option String) (ready : Bool),
      ((capture_handler srv ct sid ready).1.1 = 400 ↔
        (falsyTime ct = true ∨ falsySession sid = true ∨ ready = false)) ∧
      ((capture_handler srv ct sid ready).1.1 ≠ 400 →
        (capture_handler srv ct sid ready).1.1 = 200 ∧
        (capture_handler srv ct sid ready).1.2 = true ∧
        ∀ str, sid = some str →
          (capture_handler srv ct sid ready).2.scheduled_captures
            = insertSession srv.scheduled_captures str ∧
          str ∈ (capture_handler srv ct sid ready).2.scheduled_captures)) ∧
    (∀ (srv : NodeServer) (sid : String) (raised captureOk uploadOk : Bool),
      (execute_scheduled_capture srv sid raised captureOk uploadOk).scheduled_captures
        = srv.scheduled_captures.erase sid) := by
  constructor
  · intro srv ct sid ready
    by_cases h1 : falsyTime ct = true
    · have hform : capture_handler srv ct sid ready = ((400, false), srv) := by
        unfold capture_handler
        rw [if_pos (by simp [h1])]
      constructor
      · rw [hform]
        simp [h1]
      · intro hc
        rw [hform] at hc
        exact absurd rfl hc
    · by_cases h2 : falsySession sid = true
      · have hform : capture_handler srv ct sid ready = ((400, false), srv) := by
          unfold capture_handler
          rw [if_pos (by simp [h2])]
        constructor
        · rw [hform]
          simp [h2]
        · intro hc
          rw [hform] at hc
          exact absurd rfl hc
      · cases hr : ready with
        | false =>
          have hform : capture_handler srv ct sid false = ((400, false), srv) := by
            unfold capture_handler
            rw [if_neg (by simp [h1, h2]), if_pos (show (!false) = true from rfl)]
          constructor
          · rw [hform]
            simp
          · intro hc
            rw [hform] at hc
            exact absurd rfl hc
        | true =>
          have hform : capture_handler srv ct sid true
              = ((200, true),
                { srv with scheduled_captures :=
                    insertSession srv.scheduled_captures (sid.getD "") }) := by
            unfold capture_handler
            rw [if_neg (by simp [h1, h2]), if_neg (by simp)]
          constructor
          · rw [hform]
            simp [h1, h2]
          · intro _
            rw [hform]
            refine ⟨rfl, rfl, ?_⟩
            intro str hstr
            subst hstr
            constructor
            · rfl
            · show str ∈ insertSession srv.scheduled_captures ((some str).getD "")
              unfold insertSession
              simp only [Option.getD_some]
              by_cases hmem : str ∈ srv.scheduled_captures
              · rw [if_pos hmem]
                exact hmem
              · rw [if_neg hmem]
                exact List.mem_append_right _ (List.mem_singleton.mpr rfl)
  · intro srv sid raised captureOk uploadOk
    unfold execute_scheduled_capture
    dsimp only
    by_cases hmem : sid ∈ srv.scheduled_captures
    · rw [if_pos hmem]
    · rw [if_neg hmem]
      exact (List.erase_of_not_mem hmem).symm

/-- C7 witness: a well-formed command (`capture_time = 5`,
`session_id = "s1"`) on a ready device is accepted with 200/success and
tracked, and completing the scheduled capture removes the pending entry
even when the wait raised and capture and upload both failed. -/
theorem capture_handler_validation_spec_witness :
    (capture_handler {} (some 5) (some "s1") true).1.1 = 200 ∧
    (capture_handler {} (some 5) (some "s1") true).2.scheduled_captures
      = insertSession [] "s1" ∧
    (execute_scheduled_capture { node_id := 1, scheduled_captures := ["s1"] }
        "s1" true false false).scheduled_captures = ["s1"].erase "s1" := by
  have h := capture_handler_validation_spec.1 {} (some 5) (some "s1") true
  have hno : (capture_handler {} (some 5) (some "s1") true).1.1 ≠ 400 := by
    intro hc
    rcases h.1.mp hc with hx | hx | hx
    · exact absurd hx (by simp [falsyTime])
    · exact absurd hx (by simp [falsySession])
    · exact Bool.noConfusion hx
  have hb := h.2 hno
  exact ⟨hb.1, (hb.2.2 "s1" rfl).1,
    capture_handler_validation_spec.2
      { node_id := 1, scheduled_captures := ["s1"] } "s1" true false false⟩

end Pi5Array
